import Mathlib

/-!
Verification of the `FlaschenNP` framebuffer encoder (`flaschen_np.py`):
a UDP wire-protocol encoder with automatic tiling of large frames.

Modelling conventions:
* Byte strings are `List Nat` (ASCII codes; pixel payload bytes 0..255).
* `decRepr n` models Python's `"%d" % n` for naturals, `intDecRepr` for ints.
* Color channels are `Fin 256`, matching the `uint8` numpy storage.
* The pixel grid `np.zeros((height, width, 3), 'uint8')` is modelled as a
  total function `Nat → Nat → RGB` indexed row-first (`data y x`), all black
  initially; only indices below `height`/`width` are ever serialized.
* Fallible Python code (raising `ValueError` / `ZeroDivisionError`) is
  modelled with `Except PyError`.
* `int(math.sqrt(p))` is modelled as `Nat.sqrt p`.  In every reachable state
  `p = pixels_per_packet ≤ 21830`, and on `0 ≤ p ≤ 21830` the float
  computation `int(math.sqrt(p))` agrees exactly with `Nat.sqrt p` (the
  double-precision error is far below the distance to the nearest integer
  crossing); `math.sqrt` of a negative argument raises `ValueError`, which
  the model reflects explicitly before `Nat.sqrt` is consulted.
-/

/-- ASCII codes of a string literal. -/
def strBytes (s : String) : List Nat := s.data.map Char.toNat

/-- Fuel-indexed decimal printer (structural, so that it kernel-reduces). -/
def decReprAux : Nat → Nat → List Nat
  | 0, _ => []
  | fuel+1, n => if n < 10 then [48 + n] else decReprAux fuel (n / 10) ++ [48 + n % 10]

/-- Decimal ASCII bytes of a natural number, as Python's `"%d" % n` produces. -/
def decRepr (n : Nat) : List Nat := decReprAux (n + 1) n

/-- Decimal ASCII bytes of an integer (`'-'` is byte 45), as Python's `"%d"`. -/
def intDecRepr (i : Int) : List Nat :=
  if i < 0 then 45 :: decRepr i.natAbs else decRepr i.toNat

/-- `"P6\n%d %d\n255\n" % (w, h)` — the wire-frame header. -/
def headerBytes (w h : Nat) : List Nat :=
  strBytes "P6\n" ++ decRepr w ++ strBytes " " ++ decRepr h ++ strBytes "\n255\n"

/-- `"%d\n%d\n%d\n" % (x, y, layer)` — the wire-frame footer. -/
def footerBytes (x y layer : Nat) : List Nat :=
  decRepr x ++ strBytes "\n" ++ decRepr y ++ strBytes "\n" ++ decRepr layer ++ strBytes "\n"

/-- Header produced by `__init__`, whose `%d` fields may print negative ints. -/
def headerBytesI (w h : Int) : List Nat :=
  strBytes "P6\n" ++ intDecRepr w ++ strBytes " " ++ intDecRepr h ++ strBytes "\n255\n"

/-- One 8-bit color channel (`uint8`). -/
abbrev Channel := Fin 256

/-- An RGB triple as stored in the numpy grid. -/
abbrev RGB := Channel × Channel × Channel

/-- The three payload bytes of one pixel, in R, G, B order. -/
def rgbBytes (c : RGB) : List Nat := [c.1.val, c.2.1.val, c.2.2.val]

/-- The value triple of a stored pixel, for stating decode results. -/
def rgbNat (c : RGB) : Nat × Nat × Nat := (c.1.val, c.2.1.val, c.2.2.val)

/-- Python exceptions that the modelled code can raise. -/
inductive PyError where
  | valueError
  | zeroDivisionError
deriving DecidableEq

/-- The `FlaschenNP` object: construction parameters plus the pixel grid
(`self.data`).  The socket, being pure I/O, carries no state we model;
`_header_len`, `_footer_len` and `_buffer_size` are recomputed from the
immutable `width`/`height`/`layer` fields exactly as `__init__` stores them. -/
structure FlaschenNP where
  width : Nat
  height : Nat
  layer : Nat
  transparent : Bool
  data : Nat → Nat → RGB

/-- `MAX_UDP_PACKET = 65507`. -/
def FlaschenNP.MAX_UDP_PACKET : Nat := 65507

namespace FlaschenNP

/-- `self._header_len` as stored by `__init__`. -/
def headerLen (c : FlaschenNP) : Nat := (headerBytes c.width c.height).length

/-- `self._footer_len` as stored by `__init__` (offsets are `"0\n0\n"`). -/
def footerLen (c : FlaschenNP) : Nat := (footerBytes 0 0 c.layer).length

/-- `self._buffer_size = width * height * 3 + len(header) + len(footer)`. -/
def bufferSize (c : FlaschenNP) : Nat :=
  c.width * c.height * 3 + c.headerLen + c.footerLen

/-- `__init__(host, port, width, height, layer, transparent)`, minus the
socket.  There is no dimension check in the source: the only failures are
`bytearray(n)` with `n < 0` (ValueError) and `np.zeros` with a negative
dimension (ValueError), in that evaluation order. -/
def init (w h : Int) (layer : Nat) (transparent : Bool) : Except PyError FlaschenNP :=
  if w * h * 3 + ((headerBytesI w h).length : Int) + ((footerBytes 0 0 layer).length : Int) < 0 then
    .error .valueError
  else if w < 0 ∨ h < 0 then
    .error .valueError
  else
    .ok ⟨w.toNat, h.toNat, layer, transparent, fun _ _ => (0, 0, 0)⟩

/-- A freshly constructed canvas with nonnegative dimensions (the value
`init` returns when it succeeds): all pixels black. -/
def newCanvas (w h layer : Nat) (transparent : Bool) : FlaschenNP :=
  ⟨w, h, layer, transparent, fun _ _ => (0, 0, 0)⟩

/-- `set(x, y, color)`: bounds-checked pixel write with the black-to-(1,1,1)
substitution when `transparent` is false. -/
def set (c : FlaschenNP) (x y : Int) (color : RGB) : FlaschenNP :=
  if (c.width : Int) ≤ x ∨ (c.height : Int) ≤ y ∨ x < 0 ∨ y < 0 then c
  else
    let color := if color = (0, 0, 0) ∧ c.transparent = false then (1, 1, 1) else color
    { c with data := fun j i => if j = y.toNat ∧ i = x.toNat then color else c.data j i }

/-- `ijset(ii, jj, color) = set(jj, ii, color)`. -/
def ijset (c : FlaschenNP) (ii jj : Int) (color : RGB) : FlaschenNP :=
  c.set jj ii color

/-- `zero()`: `self.data[:] = 0`. -/
def zero (c : FlaschenNP) : FlaschenNP :=
  { c with data := fun _ _ => (0, 0, 0) }

end FlaschenNP

/-- A tile rectangle: origin offset within the canvas and clipped size. -/
structure Rect where
  x0 : Nat
  y0 : Nat
  w : Nat
  h : Nat
deriving DecidableEq

/-- Python `range(0, limit, step)` for `step ≥ 1`. -/
def offsets (limit step : Nat) : List Nat :=
  (List.range ((limit + step - 1) / step)).map (· * step)

/-- The tile rectangles generated by the two nested loops of `send`, in
emission order: `y_offset` outer, `x_offset` inner, sizes clipped at the
canvas edge by `min`. -/
def tileRects (W H tw th : Nat) : List Rect :=
  (offsets H th).flatMap fun y0 =>
    (offsets W tw).map fun x0 =>
      ⟨x0, y0, min tw (W - x0), min th (H - y0)⟩

namespace FlaschenNP

/-- `pixels_per_packet = (MAX_UDP_PACKET - header_len - footer_len) // 3`.
(Only consulted when `headerLen + footerLen ≤ 65507`, where Nat subtraction
agrees with Python; the negative case is caught as a `ValueError` first.) -/
def pixelBudget (c : FlaschenNP) : Nat :=
  (MAX_UDP_PACKET - c.headerLen - c.footerLen) / 3

/-- `tile_height = min(height, int(math.sqrt(pixels_per_packet)))`. -/
def tileHeight0 (c : FlaschenNP) : Nat :=
  min c.height (Nat.sqrt (pixelBudget c))

/-- `tile_width = min(width, pixels_per_packet // tile_height)`. -/
def tileWidth0 (c : FlaschenNP) : Nat :=
  min c.width (pixelBudget c / tileHeight0 c)

/-- The control flow of `send()`: either one full frame (`none`), or the
list of tile rectangles (`some rects`), or a raised exception.
`tileHeight0 c = 0` makes line `pixels_per_packet // tile_height` raise
`ZeroDivisionError`; a negative `pixels_per_packet` makes `math.sqrt`
raise `ValueError`. -/
def sendPlan (c : FlaschenNP) : Except PyError (Option (List Rect)) :=
  if c.bufferSize ≤ MAX_UDP_PACKET then
    .ok none
  else if MAX_UDP_PACKET < c.headerLen + c.footerLen then
    .error .valueError
  else if tileHeight0 c = 0 then
    .error .zeroDivisionError
  else if tileWidth0 c < 1 then
    .ok (some (tileRects c.width c.height 1 (min c.height (pixelBudget c))))
  else
    .ok (some (tileRects c.width c.height (tileWidth0 c) (tileHeight0 c)))

/-- Row-major RGB serialization of the sub-rectangle of the grid with origin
`(x0, y0)` and size `w × h` — `self.data[y0:y0+h, x0:x0+w, :].tobytes()`. -/
def pixelBytes (c : FlaschenNP) (x0 y0 w h : Nat) : List Nat :=
  (List.range h).flatMap fun dy =>
    (List.range w).flatMap fun dx =>
      rgbBytes (c.data (y0 + dy) (x0 + dx))

/-- The datagram sent for one tile: its own header, its pixel payload, and a
footer carrying the tile's offset and the layer. -/
def tileDatagram (c : FlaschenNP) (r : Rect) : List Nat :=
  headerBytes r.w r.h ++ pixelBytes c r.x0 r.y0 r.w r.h ++ footerBytes r.x0 r.y0 c.layer

/-- The single datagram sent when no tiling is needed (`self._bytedata` with
the pixel region overwritten by `self.data.tobytes()`). -/
def fullDatagram (c : FlaschenNP) : List Nat :=
  headerBytes c.width c.height ++ pixelBytes c 0 0 c.width c.height ++ footerBytes 0 0 c.layer

/-- `send()`: the sequence of datagrams handed to `self._sock.send`, in
order, or the exception raised. -/
def send (c : FlaschenNP) : Except PyError (List (List Nat)) :=
  (sendPlan c).map fun plan =>
    match plan with
    | none => [fullDatagram c]
    | some rects => rects.map (tileDatagram c)

end FlaschenNP

/-- Does tile `r` contain canvas pixel `(x, y)`? -/
def covers (r : Rect) (x y : Nat) : Bool :=
  decide (r.x0 ≤ x ∧ x < r.x0 + r.w ∧ r.y0 ≤ y ∧ y < r.y0 + r.h)

/-- Read the RGB triple starting at byte offset `i` of a datagram. -/
def bytesToRGB (l : List Nat) (i : Nat) : Option (Nat × Nat × Nat) :=
  match l[i]?, l[i+1]?, l[i+2]? with
  | some r, some g, some b => some (r, g, b)
  | _, _, _ => none

/-- Decode the color of canvas pixel `(x, y)` from the datagrams of one
`send()` call, per the wire protocol: find the (unique) frame whose offset
rectangle contains `(x, y)` and read the three payload bytes at its
row-major position.  `none` when `send` raises or no frame covers `(x,y)`. -/
def decodeFlush (c : FlaschenNP) (x y : Nat) : Option (Nat × Nat × Nat) :=
  match c.sendPlan with
  | .error _ => none
  | .ok none =>
    bytesToRGB c.fullDatagram ((headerBytes c.width c.height).length + (y * c.width + x) * 3)
  | .ok (some rects) =>
    match rects.find? (fun r => covers r x y) with
    | none => none
    | some r =>
      bytesToRGB (c.tileDatagram r)
        ((headerBytes r.w r.h).length + ((y - r.y0) * r.w + (x - r.x0)) * 3)

/-- Byte length of the `i`-th datagram of one `send()` call. -/
def nthDatagramLen (c : FlaschenNP) (i : Nat) : Option Nat :=
  match c.send with
  | .ok ds => ds[i]?.map List.length
  | .error _ => none

/-! ### Lengths of decimal representations -/

theorem decReprAux_congr (n : Nat) : ∀ (f g : Nat), n < f → n < g →
    decReprAux f n = decReprAux g n := by
  induction n using Nat.strong_induction_on with
  | _ n ih =>
    intro f g hf hg
    match f, g, hf, hg with
    | f+1, g+1, _, _ =>
      simp only [decReprAux]
      by_cases h10 : n < 10
      · simp [h10]
      · have hdn : n / 10 < n := Nat.div_lt_self (by omega) (by omega)
        rw [if_neg h10, if_neg h10, ih (n / 10) hdn f g (by omega) (by omega)]

theorem decReprAux_eq_decRepr (f n : Nat) (h : n < f) : decReprAux f n = decRepr n :=
  decReprAux_congr n f (n + 1) h (Nat.lt_succ_self n)

theorem decRepr_pow10_length : ∀ k : Nat, (decRepr (10 ^ k)).length = k + 1 := by
  intro k
  induction k with
  | zero => decide
  | succ k ih =>
    have hge : 10 ≤ 10 ^ (k + 1) := by
      calc 10 = 10 ^ 1 := by norm_num
      _ ≤ 10 ^ (k + 1) := Nat.pow_le_pow_right (by norm_num) (by omega)
    have hdiv : 10 ^ (k + 1) / 10 = 10 ^ k := by
      rw [pow_succ, Nat.mul_div_cancel _ (by norm_num)]
    have hlt : 10 ^ k < 10 ^ (k + 1) :=
      Nat.pow_lt_pow_right (by norm_num) (Nat.lt_succ_self k)
    rw [decRepr]
    simp only [decReprAux, if_neg (by omega : ¬ 10 ^ (k + 1) < 10)]
    rw [hdiv, decReprAux_eq_decRepr _ _ hlt, List.length_append, ih]
    simp

theorem headerBytes_length (w h : Nat) :
    (headerBytes w h).length = 9 + (decRepr w).length + (decRepr h).length := by
  have e1 : (strBytes "P6\n").length = 3 := by decide
  have e2 : (strBytes " ").length = 1 := by decide
  have e3 : (strBytes "\n255\n").length = 5 := by decide
  simp only [headerBytes, List.length_append, e1, e2, e3]
  omega

theorem footerBytes_length (x y layer : Nat) :
    (footerBytes x y layer).length =
      (decRepr x).length + (decRepr y).length + (decRepr layer).length + 3 := by
  have e1 : (strBytes "\n").length = 1 := by decide
  simp only [footerBytes, List.length_append, e1]
  omega

/-! ### Uniform-length flatMap lemmas -/

theorem flatMap_uniform_length {α β : Type} (l : List α) (f : α → List β) (L : Nat)
    (h : ∀ a ∈ l, (f a).length = L) : (l.flatMap f).length = l.length * L := by
  induction l with
  | nil => simp
  | cons a l ih =>
    have ha := h a (by simp)
    have ih' := ih (fun a ha => h a (by simp [ha]))
    simp only [List.flatMap_cons, List.length_append, ha, ih', List.length_cons]
    ring

theorem getElem?_flatMap_uniform {α β : Type} :
    ∀ (l : List α) (f : α → List β) (L i j : Nat),
      (∀ a ∈ l, (f a).length = L) → j < L → ∀ hi : i < l.length,
      (l.flatMap f)[i * L + j]? = (f (l.get ⟨i, hi⟩))[j]? := by
  intro l
  induction l with
  | nil => intro f L i j _ _ hi; simp at hi
  | cons a l ih =>
    intro f L i j hu hj hi
    match i with
    | 0 =>
      have ha : (f a).length = L := hu a (by simp)
      simp only [List.flatMap_cons, Nat.zero_mul, Nat.zero_add]
      rw [List.getElem?_append_left (by omega)]
      rfl
    | i + 1 =>
      have ha : (f a).length = L := hu a (by simp)
      have hidx : (i + 1) * L + j = L + (i * L + j) := by ring
      simp only [List.flatMap_cons, hidx]
      rw [List.getElem?_append_right (by omega)]
      have : L + (i * L + j) - (f a).length = i * L + j := by omega
      rw [this]
      exact ih f L i j (fun a ha => hu a (by simp [ha])) hj (by simpa using hi)

theorem pixelBytes_length (c : FlaschenNP) (x0 y0 w h : Nat) :
    (c.pixelBytes x0 y0 w h).length = h * (w * 3) := by
  unfold FlaschenNP.pixelBytes
  rw [flatMap_uniform_length _ _ (w * 3)]
  · simp
  · intro dy _
    rw [flatMap_uniform_length _ _ 3]
    · simp
    · intro dx _
      rfl

/-! ### The `offsets` list: Python's `range(0, limit, step)` -/

theorem ceil_div_eq (limit step : Nat) (h1 : 1 ≤ limit) (hs : 1 ≤ step) :
    (limit + step - 1) / step = (limit - 1) / step + 1 := by
  have h : limit + step - 1 = (limit - 1) + step := by omega
  rw [h, Nat.add_div_right _ hs]

theorem le_ceil_mul (limit step : Nat) (hs : 1 ≤ step) :
    limit ≤ ((limit + step - 1) / step) * step := by
  rcases Nat.eq_zero_or_pos limit with h0 | h0
  · simp [h0]
  · rw [ceil_div_eq limit step h0 hs]
    have hdm := Nat.div_add_mod (limit - 1) step
    have hmlt : (limit - 1) % step < step := Nat.mod_lt _ (by omega)
    have he : ((limit - 1) / step + 1) * step = step * ((limit - 1) / step) + step := by ring
    omega

theorem ceil_pred_mul_lt (limit step : Nat) (h1 : 1 ≤ limit) (hs : 1 ≤ step) :
    ((limit + step - 1) / step - 1) * step < limit := by
  rw [ceil_div_eq limit step h1 hs]
  have := Nat.div_mul_le_self (limit - 1) step
  simpa using by omega

theorem mem_offsets_lt {limit step o : Nat} (hs : 1 ≤ step) (h : o ∈ offsets limit step) :
    o < limit := by
  simp only [offsets, List.mem_map, List.mem_range] at h
  obtain ⟨j, hj, rfl⟩ := h
  rcases Nat.eq_zero_or_pos limit with h0 | h0
  · subst h0
    have : (0 + step - 1) / step = 0 := Nat.div_eq_of_lt (by omega)
    omega
  · have hlast := ceil_pred_mul_lt limit step h0 hs
    have hje : j ≤ (limit + step - 1) / step - 1 := by omega
    calc j * step ≤ ((limit + step - 1) / step - 1) * step := Nat.mul_le_mul_right _ hje
    _ < limit := hlast

theorem countP_range_eq (n k : Nat) (h : k < n) :
    (List.range n).countP (fun j => decide (j = k)) = 1 := by
  induction n with
  | zero => omega
  | succ n ih =>
    rw [List.range_succ, List.countP_append]
    by_cases hk : k < n
    · rw [ih hk]
      have hne : ¬ (n = k) := by omega
      simp [List.countP_singleton, hne]
    · have hk' : k = n := by omega
      subst hk'
      have h0 : (List.range k).countP (fun j => decide (j = k)) = 0 := by
        apply List.countP_eq_zero.mpr
        intro j hj
        simp only [List.mem_range] at hj
        simp only [decide_eq_true_eq]
        omega
      rw [h0]
      simp [List.countP_singleton]

/-- Exactly one origin in `range(0, limit, step)` covers a position `x < limit`,
where the covering extent at origin `o` is `min step (limit - o)`. -/
theorem offsets_countP (limit step x : Nat) (hs : 1 ≤ step) (hx : x < limit) :
    (offsets limit step).countP
      (fun o => decide (o ≤ x ∧ x < o + min step (limit - o))) = 1 := by
  unfold offsets
  rw [List.countP_map]
  have hn : x / step < (limit + step - 1) / step := by
    have hle := le_ceil_mul limit step hs
    exact (Nat.div_lt_iff_lt_mul (by omega)).mpr (lt_of_lt_of_le hx hle)
  rw [List.countP_congr, countP_range_eq _ (x / step) hn]
  intro j hj
  simp only [List.mem_range] at hj
  simp only [Function.comp_apply, decide_eq_true_eq]
  have hjlt : j * step < limit := by
    have h1 : 1 ≤ limit := by omega
    have hlast := ceil_pred_mul_lt limit step h1 hs
    have hje : j ≤ (limit + step - 1) / step - 1 := by omega
    calc j * step ≤ ((limit + step - 1) / step - 1) * step := Nat.mul_le_mul_right _ hje
    _ < limit := hlast
  constructor
  · rintro ⟨hle, hlt⟩
    have hlt' : x < j * step + step :=
      lt_of_lt_of_le hlt (by have := min_le_left step (limit - j * step); omega)
    have : x / step = j := by
      apply Nat.div_eq_of_lt_le
      · simpa [Nat.mul_comm] using hle
      · calc x < j * step + step := hlt'
        _ = (j + 1) * step := by ring
    omega
  · intro hj'
    subst hj'
    refine ⟨Nat.div_mul_le_self x step, ?_⟩
    have hdm := Nat.div_add_mod x step
    have hmlt : x % step < step := Nat.mod_lt _ (by omega)
    have h1 : x < x / step * step + step := by
      have : step * (x / step) = x / step * step := by ring
      omega
    rcases Nat.le_total step (limit - x / step * step) with hc | hc
    · rw [min_eq_left hc]; omega
    · rw [min_eq_right hc]; omega

/-! ### Tile rectangles: coverage, bounds, order -/

theorem countP_flatMap {α β : Type} (l : List α) (f : α → List β) (p : β → Bool) :
    (l.flatMap f).countP p = (l.map fun a => (f a).countP p).sum := by
  induction l with
  | nil => simp
  | cons a l ih => simp [List.countP_append, ih]

theorem sum_map_ite_count {α : Type} (l : List α) (p : α → Bool) :
    (l.map fun a => if p a then 1 else 0).sum = l.countP p := by
  induction l with
  | nil => simp
  | cons a l ih =>
    simp only [List.map_cons, List.sum_cons, List.countP_cons, ih]
    by_cases h : p a
    · simp [h]
      omega
    · simp [h]

/-- Every in-canvas pixel lies in exactly one of the tiles generated by the
two `send` loops (tile sizes `tw × th`, clipped at the canvas edge). -/
theorem tileRects_countP (W H tw th x y : Nat) (htw : 1 ≤ tw) (hth : 1 ≤ th)
    (hx : x < W) (hy : y < H) :
    (tileRects W H tw th).countP (fun r => covers r x y) = 1 := by
  unfold tileRects
  rw [countP_flatMap]
  have hxcount := offsets_countP W tw x htw hx
  have hrow : ∀ y0 : Nat,
      ((offsets W tw).map fun x0 =>
          (⟨x0, y0, min tw (W - x0), min th (H - y0)⟩ : Rect)).countP
        (fun r => covers r x y)
      = if decide (y0 ≤ y ∧ y < y0 + min th (H - y0)) then 1 else 0 := by
    intro y0
    rw [List.countP_map]
    by_cases hcy : y0 ≤ y ∧ y < y0 + min th (H - y0)
    · rw [if_pos (by simpa using hcy)]
      rw [← hxcount]
      apply List.countP_congr
      intro x0 _
      simp only [Function.comp_apply, covers, decide_eq_true_eq]
      constructor
      · rintro ⟨h1, h2, _, _⟩; exact ⟨h1, h2⟩
      · rintro ⟨h1, h2⟩; exact ⟨h1, h2, hcy.1, hcy.2⟩
    · rw [if_neg (by simpa using hcy)]
      apply List.countP_eq_zero.mpr
      intro x0 _
      simp only [Function.comp_apply, covers, decide_eq_true_eq]
      rintro ⟨_, _, h3, h4⟩
      exact hcy ⟨h3, h4⟩
  rw [List.map_congr_left fun y0 _ => hrow y0, sum_map_ite_count]
  exact offsets_countP H th y hth hy

theorem tileRects_mem {W H tw th : Nat} {r : Rect} (h : r ∈ tileRects W H tw th) :
    ∃ x0 ∈ offsets W tw, ∃ y0 ∈ offsets H th,
      r = ⟨x0, y0, min tw (W - x0), min th (H - y0)⟩ := by
  unfold tileRects at h
  rw [List.mem_flatMap] at h
  obtain ⟨y0, hy0, hmem⟩ := h
  rw [List.mem_map] at hmem
  obtain ⟨x0, hx0, heq⟩ := hmem
  exact ⟨x0, hx0, y0, hy0, heq.symm⟩

/-- Tiles stay inside the canvas and never exceed the chosen tile size. -/
theorem tileRects_bounds {W H tw th : Nat} {r : Rect} (htw : 1 ≤ tw) (hth : 1 ≤ th)
    (h : r ∈ tileRects W H tw th) :
    r.x0 + r.w ≤ W ∧ r.y0 + r.h ≤ H ∧ r.w ≤ tw ∧ r.h ≤ th := by
  obtain ⟨x0, hx0, y0, hy0, heq⟩ := tileRects_mem h
  subst heq
  have hxW : x0 < W := mem_offsets_lt htw hx0
  have hyH : y0 < H := mem_offsets_lt hth hy0
  refine ⟨?_, ?_, min_le_left _ _, min_le_left _ _⟩
  · show x0 + min tw (W - x0) ≤ W
    have := min_le_right tw (W - x0); omega
  · show y0 + min th (H - y0) ≤ H
    have := min_le_right th (H - y0); omega

theorem offsets_pairwise (limit step : Nat) (hs : 1 ≤ step) :
    (offsets limit step).Pairwise (· < ·) := by
  unfold offsets
  rw [List.pairwise_map]
  refine (List.pairwise_lt_range _).imp ?_
  intro a b hab
  exact (Nat.mul_lt_mul_right (by omega)).mpr hab

/-- Tiles are emitted in row-major order of their origins:
`y_offset` strictly ascends between rows, `x_offset` strictly ascends within
a row. -/
theorem tileRects_pairwise (W H tw th : Nat) (htw : 1 ≤ tw) (hth : 1 ≤ th) :
    (tileRects W H tw th).Pairwise
      (fun a b => a.y0 < b.y0 ∨ (a.y0 = b.y0 ∧ a.x0 < b.x0)) := by
  have hfm : ∀ (l : List Nat) (f : Nat → List Rect), l.flatMap f = (l.map f).flatten := by
    intro l f; simp [List.flatMap]
  unfold tileRects
  rw [hfm, List.pairwise_flatten]
  constructor
  · intro l' hl'
    rw [List.mem_map] at hl'
    obtain ⟨y0, _, hrow⟩ := hl'
    subst hrow
    rw [List.pairwise_map]
    refine (offsets_pairwise W tw htw).imp ?_
    intro a b hab
    exact Or.inr ⟨rfl, hab⟩
  · rw [List.pairwise_map]
    refine (offsets_pairwise H th hth).imp ?_
    intro y0 y1 hlt ra hra rb hrb
    rw [List.mem_map] at hra hrb
    obtain ⟨xa, _, ha⟩ := hra
    obtain ⟨xb, _, hb⟩ := hrb
    subst ha
    subst hb
    exact Or.inl hlt

/-! ### The tiling branch of `send` -/

theorem pixelBudget_pos {c : FlaschenNP} (hsm : c.headerLen + c.footerLen ≤ 65504) :
    1 ≤ c.pixelBudget := by
  unfold FlaschenNP.pixelBudget FlaschenNP.MAX_UDP_PACKET
  exact (Nat.le_div_iff_mul_le (by norm_num)).mpr (by omega)

/-- When the frame is oversized and the pixel budget is positive, the chosen
tile dimensions are both at least 1 (so no division by zero and no zero-size
tile), the `tile_width < 1` rescue branch is not taken, and `send` emits the
tiles `tileRects width height tileWidth0 tileHeight0`. -/
theorem tilePlan_spec (c : FlaschenNP) (hbig : 65507 < c.bufferSize)
    (hsm : c.headerLen + c.footerLen ≤ 65504) :
    1 ≤ c.tileHeight0 ∧ 1 ≤ c.tileWidth0 ∧
      c.sendPlan = .ok (some (tileRects c.width c.height c.tileWidth0 c.tileHeight0)) := by
  have hppp : 1 ≤ c.pixelBudget := pixelBudget_pos hsm
  have hW : 1 ≤ c.width := by
    rcases Nat.eq_zero_or_pos c.width with h0 | h0
    · exfalso
      have : c.bufferSize = c.headerLen + c.footerLen := by
        unfold FlaschenNP.bufferSize; rw [h0]; ring
      omega
    · exact h0
  have hH : 1 ≤ c.height := by
    rcases Nat.eq_zero_or_pos c.height with h0 | h0
    · exfalso
      have : c.bufferSize = c.headerLen + c.footerLen := by
        unfold FlaschenNP.bufferSize; rw [h0]; ring_nf
      omega
    · exact h0
  have hsq : 1 ≤ Nat.sqrt (c.pixelBudget) := Nat.le_sqrt.mpr (by omega)
  have hth : 1 ≤ c.tileHeight0 := by
    unfold FlaschenNP.tileHeight0
    exact le_min hH hsq
  have hthp : c.tileHeight0 ≤ c.pixelBudget := by
    unfold FlaschenNP.tileHeight0
    calc min c.height (Nat.sqrt c.pixelBudget) ≤ Nat.sqrt c.pixelBudget := min_le_right _ _
    _ ≤ c.pixelBudget := Nat.sqrt_le_self _
  have htw : 1 ≤ c.tileWidth0 := by
    unfold FlaschenNP.tileWidth0
    refine le_min hW ?_
    exact (Nat.le_div_iff_mul_le (by omega)).mpr (by omega)
  refine ⟨hth, htw, ?_⟩
  unfold FlaschenNP.sendPlan FlaschenNP.MAX_UDP_PACKET
  rw [if_neg (by omega), if_neg (by omega), if_neg (by omega), if_neg (by omega)]

/-- The total pixel count of every planned tile fits the (full-frame-based)
budget: `tileWidth0 * tileHeight0 ≤ pixelBudget`. -/
theorem tileDims_le_budget (c : FlaschenNP) (hbig : 65507 < c.bufferSize)
    (hsm : c.headerLen + c.footerLen ≤ 65504) :
    c.tileWidth0 * c.tileHeight0 ≤ c.pixelBudget := by
  have hppp : 1 ≤ c.pixelBudget := pixelBudget_pos hsm
  obtain ⟨hth, htw, _⟩ := tilePlan_spec c hbig hsm
  have h1 : c.tileWidth0 ≤ c.pixelBudget / c.tileHeight0 := by
    unfold FlaschenNP.tileWidth0
    exact min_le_right _ _
  calc c.tileWidth0 * c.tileHeight0
      ≤ c.pixelBudget / c.tileHeight0 * c.tileHeight0 := Nat.mul_le_mul_right _ h1
  _ ≤ c.pixelBudget := Nat.div_mul_le_self _ _

/-! ### Decoding a flush -/

theorem bytesToRGB_append (pre mid post : List Nat) (pos : Nat)
    (hpos : pos + 2 < mid.length) :
    bytesToRGB (pre ++ mid ++ post) (pre.length + pos) = bytesToRGB mid pos := by
  have h1 : ∀ k, k < mid.length →
      (pre ++ mid ++ post)[pre.length + k]? = mid[k]? := by
    intro k hk
    rw [List.append_assoc, List.getElem?_append_right (by omega)]
    have he : pre.length + k - pre.length = k := by omega
    rw [he, List.getElem?_append_left hk]
  unfold bytesToRGB
  rw [h1 pos (by omega)]
  rw [show pre.length + pos + 1 = pre.length + (pos + 1) by omega, h1 (pos + 1) (by omega)]
  rw [show pre.length + pos + 2 = pre.length + (pos + 2) by omega, h1 (pos + 2) (by omega)]

theorem rgbBytes_length (q : RGB) : (rgbBytes q).length = 3 := rfl

theorem pixelBytes_getElem (c : FlaschenNP) (x0 y0 w h dx dy k : Nat)
    (hdx : dx < w) (hdy : dy < h) (hk : k < 3) :
    (c.pixelBytes x0 y0 w h)[(dy * w + dx) * 3 + k]? =
      (rgbBytes (c.data (y0 + dy) (x0 + dx)))[k]? := by
  unfold FlaschenNP.pixelBytes
  have hrowlen : ∀ m ∈ List.range h,
      ((List.range w).flatMap fun dx' => rgbBytes (c.data (y0 + m) (x0 + dx'))).length
        = w * 3 := by
    intro m _
    rw [flatMap_uniform_length _ _ 3 (fun a _ => rgbBytes_length _)]
    simp
  have hidx : (dy * w + dx) * 3 + k = dy * (w * 3) + (dx * 3 + k) := by ring
  rw [hidx]
  rw [getElem?_flatMap_uniform _ _ (w * 3) dy (dx * 3 + k) hrowlen (by omega)
      (by simpa using hdy)]
  have hget : (List.range h).get ⟨dy, by simpa using hdy⟩ = dy := by
    simp
  rw [hget]
  rw [getElem?_flatMap_uniform _ _ 3 dx k (fun a _ => rgbBytes_length _) hk
      (by simpa using hdx)]
  have hget2 : (List.range w).get ⟨dx, by simpa using hdx⟩ = dx := by
    simp
  rw [hget2]

/-- Reading three payload bytes at the row-major position of sub-pixel
`(dx, dy)` recovers the stored RGB value. -/
theorem pixelBytes_decode (c : FlaschenNP) (x0 y0 w h dx dy : Nat)
    (hdx : dx < w) (hdy : dy < h) :
    bytesToRGB (c.pixelBytes x0 y0 w h) ((dy * w + dx) * 3)
      = some (rgbNat (c.data (y0 + dy) (x0 + dx))) := by
  have h0 := pixelBytes_getElem c x0 y0 w h dx dy 0 hdx hdy (by omega)
  rw [Nat.add_zero] at h0
  have h1 := pixelBytes_getElem c x0 y0 w h dx dy 1 hdx hdy (by omega)
  have h2' := pixelBytes_getElem c x0 y0 w h dx dy 2 hdx hdy (by omega)
  unfold bytesToRGB
  rw [h0, h1, show (dy * w + dx) * 3 + 1 + 1 = (dy * w + dx) * 3 + 2 by omega, h2']
  rfl

/-- Decoding a tile datagram at the wire position of in-tile pixel `(x, y)`
returns exactly the stored grid value. -/
theorem tileDatagram_decode (c : FlaschenNP) (r : Rect) (x y : Nat)
    (hc : covers r x y = true) :
    bytesToRGB (c.tileDatagram r)
      ((headerBytes r.w r.h).length + ((y - r.y0) * r.w + (x - r.x0)) * 3)
      = some (rgbNat (c.data y x)) := by
  have hcov : r.x0 ≤ x ∧ x < r.x0 + r.w ∧ r.y0 ≤ y ∧ y < r.y0 + r.h := by
    simpa [covers] using hc
  obtain ⟨hx1, hx2, hy1, hy2⟩ := hcov
  have hdx : x - r.x0 < r.w := by omega
  have hdy : y - r.y0 < r.h := by omega
  have hlen : (c.pixelBytes r.x0 r.y0 r.w r.h).length = r.h * (r.w * 3) :=
    pixelBytes_length c r.x0 r.y0 r.w r.h
  have hpix : (y - r.y0) * r.w + (x - r.x0) < r.h * r.w := by
    calc (y - r.y0) * r.w + (x - r.x0) < (y - r.y0) * r.w + r.w := by omega
    _ = ((y - r.y0) + 1) * r.w := by ring
    _ ≤ r.h * r.w := Nat.mul_le_mul_right _ (by omega)
  have hpos : ((y - r.y0) * r.w + (x - r.x0)) * 3 + 2
      < (c.pixelBytes r.x0 r.y0 r.w r.h).length := by
    rw [hlen]
    have hrw : r.h * (r.w * 3) = (r.h * r.w) * 3 := by ring
    omega
  unfold FlaschenNP.tileDatagram
  rw [bytesToRGB_append _ _ _ _ hpos]
  rw [pixelBytes_decode c r.x0 r.y0 r.w r.h (x - r.x0) (y - r.y0) hdx hdy]
  rw [show r.y0 + (y - r.y0) = y by omega, show r.x0 + (x - r.x0) = x by omega]

/-! ### `set` only changes the grid, never the frame geometry -/

theorem set_width (c : FlaschenNP) (x y : Int) (col : RGB) :
    (c.set x y col).width = c.width := by
  unfold FlaschenNP.set
  split
  · rfl
  · rfl

theorem set_height (c : FlaschenNP) (x y : Int) (col : RGB) :
    (c.set x y col).height = c.height := by
  unfold FlaschenNP.set
  split
  · rfl
  · rfl

theorem set_headerLen (c : FlaschenNP) (x y : Int) (col : RGB) :
    (c.set x y col).headerLen = c.headerLen := by
  unfold FlaschenNP.set
  split
  · rfl
  · rfl

theorem set_footerLen (c : FlaschenNP) (x y : Int) (col : RGB) :
    (c.set x y col).footerLen = c.footerLen := by
  unfold FlaschenNP.set
  split
  · rfl
  · rfl

/-- `send` inspects only the frame geometry, which `set` never changes. -/
theorem sendPlan_set (c : FlaschenNP) (x y : Int) (col : RGB) :
    (c.set x y col).sendPlan = c.sendPlan := by
  unfold FlaschenNP.set
  split
  · rfl
  · rfl

/-- After an in-bounds `set`, the grid holds the (possibly substituted)
color at the written position. -/
theorem set_data_self (c : FlaschenNP) (x y : Nat) (col : RGB)
    (hx : x < c.width) (hy : y < c.height) :
    (c.set x y col).data y x =
      (if col = (0, 0, 0) ∧ c.transparent = false then (1, 1, 1) else col) := by
  unfold FlaschenNP.set
  rw [if_neg (by omega)]
  simp

/-! ### The decode round trip -/

/-- Decoding the output of `send` at any in-bounds pixel returns exactly the
grid value there, both in the single-frame and in the tiled case (provided
the pixel budget is positive, i.e. `headerLen + footerLen ≤ 65504`). -/
theorem decode_roundtrip (c : FlaschenNP) (x y : Nat)
    (hx : x < c.width) (hy : y < c.height)
    (hsm : c.headerLen + c.footerLen ≤ 65504) :
    decodeFlush c x y = some (rgbNat (c.data y x)) := by
  by_cases hb : c.bufferSize ≤ 65507
  · have hplan : c.sendPlan = .ok none := by
      unfold FlaschenNP.sendPlan FlaschenNP.MAX_UDP_PACKET
      rw [if_pos hb]
    have hcov : covers ⟨0, 0, c.width, c.height⟩ x y = true := by
      simp only [covers, decide_eq_true_eq]
      refine ⟨by omega, by omega, by omega, by omega⟩
    have hdec := tileDatagram_decode c ⟨0, 0, c.width, c.height⟩ x y hcov
    simp only [decodeFlush, hplan]
    simpa using hdec
  · push_neg at hb
    obtain ⟨hth, htw, hplan⟩ := tilePlan_spec c hb hsm
    have hcnt := tileRects_countP c.width c.height _ _ x y htw hth hx hy
    have hex : ∃ r ∈ tileRects c.width c.height c.tileWidth0 c.tileHeight0,
        covers r x y = true := List.countP_pos_iff.mp (by omega)
    obtain ⟨r0, hr0, hcov0⟩ := hex
    cases hfind : (tileRects c.width c.height c.tileWidth0 c.tileHeight0).find?
        (fun r => covers r x y) with
    | none =>
      exfalso
      have := List.find?_eq_none.mp hfind r0 hr0
      simp [hcov0] at this
    | some r =>
      have hcov := List.find?_some hfind
      simp only [decodeFlush, hplan, hfind]
      exact tileDatagram_decode c r x y hcov

/-! ### Crash path: zero pixel budget -/

/-- When the frame is oversized but the stored header+footer leave fewer
than 3 budget bytes, `tile_height` evaluates to 0 and the division
`pixels_per_packet // tile_height` raises `ZeroDivisionError`. -/
theorem sendPlan_zeroDiv_of (c : FlaschenNP) (hbig : 65507 < c.bufferSize)
    (hsum : 65504 < c.headerLen + c.footerLen)
    (hsum2 : c.headerLen + c.footerLen ≤ 65507) :
    c.sendPlan = .error .zeroDivisionError := by
  have hpb : c.pixelBudget = 0 := by
    unfold FlaschenNP.pixelBudget FlaschenNP.MAX_UDP_PACKET
    exact Nat.div_eq_of_lt (by omega)
  have hth0 : c.tileHeight0 = 0 := by
    unfold FlaschenNP.tileHeight0
    rw [hpb, Nat.sqrt_zero]
    simp
  unfold FlaschenNP.sendPlan FlaschenNP.MAX_UDP_PACKET
  rw [if_neg (by omega), if_neg (by omega), if_pos hth0]

theorem sqrt_21828 : Nat.sqrt 21828 = 147 := by
  have h1 : 147 ≤ Nat.sqrt 21828 := Nat.le_sqrt.mpr (by norm_num)
  have h2 : Nat.sqrt 21828 < 148 := Nat.sqrt_lt.mpr (by norm_num)
  omega

/-! ### Concrete canvases used in witnesses and counterexamples -/

/-- The matrix-effect default: 45×35, layer 2. -/
def c45 : FlaschenNP := FlaschenNP.newCanvas 45 35 2 false

/-- A 43657×1 canvas: small enough to allocate (131 KB), yet its middle tile
datagram overflows the UDP limit. -/
def c43657 : FlaschenNP := FlaschenNP.newCanvas 43657 1 0 false

/-- A 130000×1 canvas: tile 4 (x_offset 87312) overflows the UDP limit. -/
def c130000 : FlaschenNP := FlaschenNP.newCanvas 130000 1 0 false

def c300 : FlaschenNP := FlaschenNP.newCanvas 300 300 0 false

def c200 : FlaschenNP := FlaschenNP.newCanvas 200 200 1 false

def c250 : FlaschenNP := FlaschenNP.newCanvas 250 100 3 false

def c12x9 : FlaschenNP := FlaschenNP.newCanvas 12 9 0 false

def c3x2 : FlaschenNP := FlaschenNP.newCanvas 3 2 0 false

/-- Canvas whose stored header+footer length is exactly 65507: pixel budget 0. -/
def bigC3 : FlaschenNP := FlaschenNP.newCanvas (10 ^ 65490) 1 0 false

/-- Canvas whose stored header+footer length is 65506: pixel budget 0. -/
def bigC4 : FlaschenNP := FlaschenNP.newCanvas (10 ^ 65489) 1 0 false

/-- Canvas (layer 10) whose stored header+footer length is 65507. -/
def bigC8 : FlaschenNP := FlaschenNP.newCanvas (10 ^ 65489) 1 10 false

theorem c43657_plan : c43657.sendPlan = .ok (some (tileRects 43657 1 21828 1)) := by
  have hpb : c43657.pixelBudget = 21828 := by decide
  have hth : c43657.tileHeight0 = 1 := by
    unfold FlaschenNP.tileHeight0
    rw [hpb, sqrt_21828]
    decide
  have htw : c43657.tileWidth0 = 21828 := by
    unfold FlaschenNP.tileWidth0
    rw [hpb, hth]
    decide
  obtain ⟨_, _, hplan⟩ := tilePlan_spec c43657 (by decide) (by decide)
  rw [hth, htw] at hplan
  exact hplan

theorem c130000_plan : c130000.sendPlan = .ok (some (tileRects 130000 1 21828 1)) := by
  have hpb : c130000.pixelBudget = 21828 := by decide
  have hth : c130000.tileHeight0 = 1 := by
    unfold FlaschenNP.tileHeight0
    rw [hpb, sqrt_21828]
    decide
  have htw : c130000.tileWidth0 = 21828 := by
    unfold FlaschenNP.tileWidth0
    rw [hpb, hth]
    decide
  obtain ⟨_, _, hplan⟩ := tilePlan_spec c130000 (by decide) (by decide)
  rw [hth, htw] at hplan
  exact hplan

theorem tileDatagram_length (c : FlaschenNP) (r : Rect) :
    (c.tileDatagram r).length =
      (headerBytes r.w r.h).length + r.h * (r.w * 3) + (footerBytes r.x0 r.y0 c.layer).length := by
  unfold FlaschenNP.tileDatagram
  rw [List.length_append, List.length_append, pixelBytes_length]

theorem nthDatagramLen_ok {c : FlaschenNP} {ds : List (List Nat)} (h : c.send = .ok ds)
    (i : Nat) : nthDatagramLen c i = ds[i]?.map List.length := by
  unfold nthDatagramLen
  rw [h]

/-- C1: on the 43657×1 canvas the datagram of the middle tile
(x_offset 21828) is 65509 bytes long, exceeding `MAX_UDP_PACKET = 65507`:
the pixel budget is computed against the full-frame footer `"0\n0\n0\n"`
(6 bytes), but this tile's footer `"21828\n0\n0\n"` is 10 bytes. -/
theorem C1_datagram_overflow :
    nthDatagramLen c43657 1 = some 65509 ∧ 65507 < 65509 := by
  refine ⟨?_, by norm_num⟩
  have hsend : c43657.send = .ok ((tileRects 43657 1 21828 1).map c43657.tileDatagram) := by
    unfold FlaschenNP.send
    rw [c43657_plan]
    rfl
  have hrects : tileRects 43657 1 21828 1 =
      [⟨0, 0, 21828, 1⟩, ⟨21828, 0, 21828, 1⟩, ⟨43656, 0, 1, 1⟩] := by decide
  rw [nthDatagramLen_ok hsend 1, hrects]
  simp only [List.map_cons, List.map_nil, List.getElem?_cons_succ, List.getElem?_cons_zero,
    Option.map_some']
  rw [tileDatagram_length]
  have e1 : (headerBytes (Rect.mk 21828 0 21828 1).w (Rect.mk 21828 0 21828 1).h).length = 15 := by
    decide
  have e2 : (footerBytes (Rect.mk 21828 0 21828 1).x0 (Rect.mk 21828 0 21828 1).y0
      c43657.layer).length = 10 := by decide
  rw [e1, e2]
  norm_num

/-- C5 (counterexample): on the 130000×1 canvas the datagram of tile 4
(x_offset 87312) is 65509 bytes — its own header (15) and footer (10) do
not fit in the budget slack left by the stored 16+6-byte header/footer, so
"every tile's payload plus its own header and footer fit within 65507" is
false. -/
theorem C5_tile_overflow_counterexample :
    nthDatagramLen c130000 4 = some 65509 ∧ 65507 < 65509 := by
  refine ⟨?_, by norm_num⟩
  have hsend : c130000.send = .ok ((tileRects 130000 1 21828 1).map c130000.tileDatagram) := by
    unfold FlaschenNP.send
    rw [c130000_plan]
    rfl
  have hrects : tileRects 130000 1 21828 1 =
      [⟨0, 0, 21828, 1⟩, ⟨21828, 0, 21828, 1⟩, ⟨43656, 0, 21828, 1⟩,
       ⟨65484, 0, 21828, 1⟩, ⟨87312, 0, 21828, 1⟩, ⟨109140, 0, 20860, 1⟩] := by decide
  rw [nthDatagramLen_ok hsend 4, hrects]
  simp only [List.map_cons, List.map_nil, List.getElem?_cons_succ, List.getElem?_cons_zero,
    Option.map_some']
  rw [tileDatagram_length]
  have e1 : (headerBytes (Rect.mk 87312 0 21828 1).w (Rect.mk 87312 0 21828 1).h).length = 15 := by
    decide
  have e2 : (footerBytes (Rect.mk 87312 0 21828 1).x0 (Rect.mk 87312 0 21828 1).y0
      c130000.layer).length = 10 := by decide
  rw [e1, e2]
  norm_num

theorem decodeFlush_of_error (c : FlaschenNP) (x y : Nat) (e : PyError)
    (h : c.sendPlan = .error e) : decodeFlush c x y = none := by
  unfold decodeFlush
  rw [h]

theorem headerLen_pow10 (k layer : Nat) (t : Bool) :
    (FlaschenNP.newCanvas (10 ^ k) 1 layer t).headerLen = k + 11 := by
  show (headerBytes (10 ^ k) 1).length = k + 11
  rw [headerBytes_length, decRepr_pow10_length]
  have e : (decRepr 1).length = 1 := by decide
  omega

theorem bufferSize_pow10 (k layer : Nat) (t : Bool) :
    (FlaschenNP.newCanvas (10 ^ k) 1 layer t).bufferSize
      = 10 ^ k * 3 + (k + 11) + (footerBytes 0 0 layer).length := by
  show 10 ^ k * 1 * 3 + (FlaschenNP.newCanvas (10 ^ k) 1 layer t).headerLen
      + (FlaschenNP.newCanvas (10 ^ k) 1 layer t).footerLen = _
  rw [headerLen_pow10]
  have hfl : (FlaschenNP.newCanvas (10 ^ k) 1 layer t).footerLen
      = (footerBytes 0 0 layer).length := rfl
  rw [hfl]
  ring

/-- On a `10^k × 1` canvas whose stored header+footer length lands in
`(65504, 65507]`, the pixel budget truncates to 0 and `send` raises
`ZeroDivisionError` at `pixels_per_packet // tile_height`. -/
theorem pow10_zeroDiv (k layer : Nat) (t : Bool)
    (hsum : 65504 < k + 11 + (footerBytes 0 0 layer).length)
    (hsum2 : k + 11 + (footerBytes 0 0 layer).length ≤ 65507) :
    65507 < (FlaschenNP.newCanvas (10 ^ k) 1 layer t).bufferSize ∧
      (FlaschenNP.newCanvas (10 ^ k) 1 layer t).sendPlan = .error .zeroDivisionError := by
  have hhl := headerLen_pow10 k layer t
  have hfl : (FlaschenNP.newCanvas (10 ^ k) 1 layer t).footerLen
      = (footerBytes 0 0 layer).length := rfl
  have hbs : 65507 < (FlaschenNP.newCanvas (10 ^ k) 1 layer t).bufferSize := by
    rw [bufferSize_pow10]
    have hp : 0 < 10 ^ k := pow_pos (by norm_num) k
    omega
  exact ⟨hbs, sendPlan_zeroDiv_of _ hbs (by omega) (by omega)⟩

/-! ### Claim theorems -/

/-- C2: whenever the full serialized frame `headerLen + W*H*3 + footerLen`
is at most 65507 bytes, `send` emits exactly one datagram, consisting of the
header carrying the full width and height, the whole pixel payload, and the
footer with offsets `(0, 0)` and the constructed layer. -/
theorem C2_single_datagram (c : FlaschenNP) (hfit : c.bufferSize ≤ 65507) :
    c.send = .ok [headerBytes c.width c.height
      ++ c.pixelBytes 0 0 c.width c.height ++ footerBytes 0 0 c.layer] := by
  have hplan : c.sendPlan = .ok none := by
    unfold FlaschenNP.sendPlan FlaschenNP.MAX_UDP_PACKET
    rw [if_pos hfit]
  unfold FlaschenNP.send
  rw [hplan]
  rfl

/-- C2 witness: the matrix-effect default 45×35 canvas on layer 2 fits in
one datagram that begins with the header bytes of `"P6\n45 35\n255\n"` and
ends with the footer bytes of `"0\n0\n2\n"`. -/
theorem C2_single_datagram_witness :
    c45.bufferSize ≤ 65507 ∧
      c45.send = .ok [strBytes "P6\n45 35\n255\n"
        ++ c45.pixelBytes 0 0 45 35 ++ strBytes "0\n0\n2\n"] :=
  ⟨by decide, C2_single_datagram c45 (by decide)⟩

/-- C3 (amended): for every canvas whose full frame exceeds 65507 bytes and
whose stored header+footer length is at most 65504 (pixel budget ≥ 1), the
emitted tile rectangles exactly and disjointly cover the canvas (every
in-bounds pixel lies in exactly one tile), stay clipped inside the canvas,
and are emitted in row-major order of their origins. -/
theorem C3_tiles_partition (c : FlaschenNP) (hbig : 65507 < c.bufferSize)
    (hsm : c.headerLen + c.footerLen ≤ 65504) :
    ∃ rects, c.sendPlan = .ok (some rects) ∧
      (∀ x y, x < c.width → y < c.height →
        rects.countP (fun r => covers r x y) = 1) ∧
      (∀ r ∈ rects, r.x0 + r.w ≤ c.width ∧ r.y0 + r.h ≤ c.height) ∧
      rects.Pairwise (fun a b => a.y0 < b.y0 ∨ (a.y0 = b.y0 ∧ a.x0 < b.x0)) := by
  obtain ⟨hth, htw, hplan⟩ := tilePlan_spec c hbig hsm
  refine ⟨_, hplan, ?_, ?_, ?_⟩
  · intro x y hx hy
    exact tileRects_countP c.width c.height _ _ x y htw hth hx hy
  · intro r hr
    have hb := tileRects_bounds htw hth hr
    exact ⟨hb.1, hb.2.1⟩
  · exact tileRects_pairwise _ _ _ _ htw hth

/-- C3 witness: the 300×300 canvas needs tiling and its tiles partition it. -/
theorem C3_tiles_partition_witness :
    65507 < c300.bufferSize ∧ c300.headerLen + c300.footerLen ≤ 65504 ∧
      (∃ rects, c300.sendPlan = .ok (some rects) ∧
        (∀ x y, x < c300.width → y < c300.height →
          rects.countP (fun r => covers r x y) = 1) ∧
        (∀ r ∈ rects, r.x0 + r.w ≤ c300.width ∧ r.y0 + r.h ≤ c300.height) ∧
        rects.Pairwise (fun a b => a.y0 < b.y0 ∨ (a.y0 = b.y0 ∧ a.x0 < b.x0))) :=
  ⟨by decide, by decide, C3_tiles_partition c300 (by decide) (by decide)⟩

/-- C3 counterexample to the unamended claim: the `10^65490 × 1` canvas
exceeds 65507 bytes, yet `send` raises `ZeroDivisionError` before emitting
any tile, so the emitted tiles do not cover the canvas. -/
theorem C3_crash_counterexample :
    65507 < bigC3.bufferSize ∧ bigC3.sendPlan = .error .zeroDivisionError :=
  pow10_zeroDiv 65490 0 false (by decide) (by decide)

/-- C4 (amended): writing an in-bounds pixel and flushing reproduces the
written color at that position in the decoded wire bytes — except that
`(0,0,0)` with `transparent = false` is stored and emitted as `(1,1,1)`,
while with `transparent = true` it stays `(0,0,0)` — provided the stored
header+footer length is at most 65504 (pixel budget ≥ 1). -/
theorem C4_setPixel_roundtrip (c : FlaschenNP) (x y : Nat) (col : RGB)
    (hx : x < c.width) (hy : y < c.height)
    (hsm : c.headerLen + c.footerLen ≤ 65504) :
    decodeFlush (c.set x y col) x y =
      some (rgbNat (if col = (0, 0, 0) ∧ c.transparent = false
        then (1, 1, 1) else col)) := by
  have hx' : x < (c.set x y col).width := by rw [set_width]; exact hx
  have hy' : y < (c.set x y col).height := by rw [set_height]; exact hy
  have hsm' : (c.set x y col).headerLen + (c.set x y col).footerLen ≤ 65504 := by
    rw [set_headerLen, set_footerLen]; exact hsm
  rw [decode_roundtrip _ x y hx' hy' hsm', set_data_self c x y col hx hy]

/-- C4 witness: on a fresh 12×9 canvas with `transparent = false`, writing
black `(0,0,0)` at `(3,4)` and flushing decodes to `(1,1,1)` there. -/
theorem C4_setPixel_roundtrip_witness :
    3 < c12x9.width ∧ 4 < c12x9.height ∧
      c12x9.headerLen + c12x9.footerLen ≤ 65504 ∧
      decodeFlush (c12x9.set 3 4 (0, 0, 0)) 3 4 = some (1, 1, 1) := by
  refine ⟨by decide, by decide, by decide, ?_⟩
  have h := C4_setPixel_roundtrip c12x9 3 4 (0, 0, 0) (by decide) (by decide) (by decide)
  simpa [rgbNat] using h

/-- C4 counterexample to the unamended claim: on the `10^65489 × 1` canvas
(stored header+footer = 65506 bytes, pixel budget 0), `set` then `send`
raises `ZeroDivisionError`, so no color is reproduced at the written pixel. -/
theorem C4_crash_counterexample :
    decodeFlush (bigC4.set 0 0 (5, 5, 5)) 0 0 = none := by
  have hplan : (bigC4.set 0 0 (5, 5, 5)).sendPlan = .error .zeroDivisionError := by
    rw [sendPlan_set]
    exact (pow10_zeroDiv 65489 0 false (by decide) (by decide)).2
  exact decodeFlush_of_error _ 0 0 _ hplan

/-- C5 (amended): the pixel budget `(65507 - headerLen - footerLen) // 3` is
computed once per flush from the stored full-frame header/footer lengths —
not per tile — so what holds of every emitted tile is that its pixel count
fits that one budget: payload plus the *full-frame* header/footer lengths
stay within 65507 (a tile's own longer footer may push its datagram over). -/
theorem C5_budget_from_full_frame (c : FlaschenNP) (hbig : 65507 < c.bufferSize)
    (hsm : c.headerLen + c.footerLen ≤ 65504) :
    ∃ rects, c.sendPlan = .ok (some rects) ∧ ∀ r ∈ rects,
      r.w * r.h ≤ c.pixelBudget ∧
      3 * (r.w * r.h) + c.headerLen + c.footerLen ≤ 65507 := by
  obtain ⟨hth, htw, hplan⟩ := tilePlan_spec c hbig hsm
  have hbud := tileDims_le_budget c hbig hsm
  refine ⟨_, hplan, ?_⟩
  intro r hr
  obtain ⟨_, _, hwle, hhle⟩ := tileRects_bounds htw hth hr
  have h1 : r.w * r.h ≤ c.tileWidth0 * c.tileHeight0 := Nat.mul_le_mul hwle hhle
  have h2 : r.w * r.h ≤ c.pixelBudget := le_trans h1 hbud
  refine ⟨h2, ?_⟩
  have h3 : 3 * c.pixelBudget ≤ 65507 - c.headerLen - c.footerLen := by
    unfold FlaschenNP.pixelBudget FlaschenNP.MAX_UDP_PACKET
    calc 3 * ((65507 - c.headerLen - c.footerLen) / 3)
        = (65507 - c.headerLen - c.footerLen) / 3 * 3 := by ring
    _ ≤ 65507 - c.headerLen - c.footerLen := Nat.div_mul_le_self _ _
  omega

/-- C5 witness: a 250×100 layer-3 canvas tiles, and every tile's pixel
count fits the single full-frame-based budget. -/
theorem C5_budget_from_full_frame_witness :
    65507 < c250.bufferSize ∧ c250.headerLen + c250.footerLen ≤ 65504 ∧
      (∃ rects, c250.sendPlan = .ok (some rects) ∧ ∀ r ∈ rects,
        r.w * r.h ≤ c250.pixelBudget ∧
        3 * (r.w * r.h) + c250.headerLen + c250.footerLen ≤ 65507) :=
  ⟨by decide, by decide, C5_budget_from_full_frame c250 (by decide) (by decide)⟩

/-- C6 (amended): construction validates nothing about the dimensions — it
succeeds exactly when `width ≥ 0` and `height ≥ 0` (including zero), and
for negative dimensions it fails with `ValueError` from the buffer/array
allocation, not with any `InvalidDimension` check. -/
theorem C6_init_no_validation (w h : Int) (layer : Nat) (t : Bool) :
    (∃ c, FlaschenNP.init w h layer t = .ok c) ↔ 0 ≤ w ∧ 0 ≤ h := by
  constructor
  · rintro ⟨c, hc⟩
    unfold FlaschenNP.init at hc
    split_ifs at hc with h1 h2
    · omega
  · rintro ⟨hw, hh⟩
    have hnn : ¬ (w * h * 3 + ((headerBytesI w h).length : Int)
        + ((footerBytes 0 0 layer).length : Int) < 0) := by
      push_neg
      have h1 : (0 : Int) ≤ w * h * 3 := by positivity
      have h2 : (0 : Int) ≤ ((headerBytesI w h).length : Int) := Int.natCast_nonneg _
      have h3 : (0 : Int) ≤ ((footerBytes 0 0 layer).length : Int) := Int.natCast_nonneg _
      linarith
    unfold FlaschenNP.init
    rw [if_neg hnn, if_neg (by omega : ¬ (w < 0 ∨ h < 0))]
    exact ⟨_, rfl⟩

/-- C6 counterexample: constructing with `width = 0` (≤ 0, so the claim
says construction must fail) succeeds and returns a usable zero-width
canvas object. -/
theorem C6_zero_width_counterexample :
    FlaschenNP.init 0 5 0 false = .ok (FlaschenNP.newCanvas 0 5 0 false) := rfl

/-- C7: a `set` whose coordinates fall outside `[0, W) × [0, H)` — negative
or too large — is a silent no-op: the object, including every cell of the
pixel grid, is returned unchanged. -/
theorem C7_oob_set_noop (c : FlaschenNP) (x y : Int) (col : RGB)
    (h : x < 0 ∨ y < 0 ∨ (c.width : Int) ≤ x ∨ (c.height : Int) ≤ y) :
    c.set x y col = c := by
  unfold FlaschenNP.set
  rw [if_pos (by tauto)]

/-- C7 witness: writing at `x = -1` on a 3×2 canvas changes nothing. -/
theorem C7_oob_set_noop_witness :
    ((-1 : Int) < 0 ∨ (0 : Int) < 0 ∨ (c3x2.width : Int) ≤ -1 ∨
        (c3x2.height : Int) ≤ 0) ∧
      c3x2.set (-1) 0 (5, 5, 5) = c3x2 :=
  ⟨by decide, C7_oob_set_noop c3x2 (-1) 0 (5, 5, 5) (by decide)⟩

/-- C8 (amended): whenever flushing requires tiling and the stored
header+footer length is at most 65504 (pixel budget ≥ 1), the chosen tile
dimensions satisfy `tileWidth ≥ 1` and `tileHeight ≥ 1` — in particular the
height used as divisor is nonzero and the `tile_width < 1` rescue is never
needed — and `send` proceeds with those dimensions. -/
theorem C8_tile_dims_positive (c : FlaschenNP) (hbig : 65507 < c.bufferSize)
    (hsm : c.headerLen + c.footerLen ≤ 65504) :
    1 ≤ c.tileWidth0 ∧ 1 ≤ c.tileHeight0 ∧
      c.sendPlan = .ok (some (tileRects c.width c.height c.tileWidth0 c.tileHeight0)) := by
  obtain ⟨hth, htw, hplan⟩ := tilePlan_spec c hbig hsm
  exact ⟨htw, hth, hplan⟩

/-- C8 witness: the 200×200 layer-1 canvas tiles with positive dimensions. -/
theorem C8_tile_dims_positive_witness :
    65507 < c200.bufferSize ∧ c200.headerLen + c200.footerLen ≤ 65504 ∧
      (1 ≤ c200.tileWidth0 ∧ 1 ≤ c200.tileHeight0 ∧
        c200.sendPlan = .ok (some (tileRects c200.width c200.height
          c200.tileWidth0 c200.tileHeight0))) :=
  ⟨by decide, by decide, C8_tile_dims_positive c200 (by decide) (by decide)⟩

/-- C8 counterexample to the unamended claim: on the `10^65489 × 1` layer-10
canvas (stored header+footer exactly 65507, pixel budget 0), tiling is
required but `tile_height` evaluates to 0 and is used as a divisor: `send`
raises `ZeroDivisionError` instead of producing 1×1-or-larger tiles. -/
theorem C8_zero_division_counterexample :
    65507 < bigC8.bufferSize ∧ bigC8.sendPlan = .error .zeroDivisionError :=
  pow10_zeroDiv 65489 10 false (by decide) (by decide)

/-- C9: `zero()` stores exact black `(0,0,0)` in every grid cell, with no
transparency substitution, whatever the `transparent` flag is. -/
theorem C9_zero_all_black (c : FlaschenNP) (x y : Nat) :
    (c.zero).data y x = (0, 0, 0) := rfl

/-- C10: `ijset(ii, jj, color)` is exactly `set(jj, ii, color)` — the
transposed-argument alias, with identical bounds-check, silent
out-of-bounds drop, and black-substitution behavior. -/
theorem C10_ijset_transposed (c : FlaschenNP) (ii jj : Int) (col : RGB) :
    c.ijset ii jj col = c.set jj ii col := rfl
